import Mathlib

set_option maxRecDepth 100000
set_option maxHeartbeats 2000000

/-!
Shallow embedding of the return-analysis engine of the stonk repository
(src/App.tsx, `handleCalculate`): configuration validation, holding-period
return sampling, distribution summary, and the percentile cone estimator.
Prices are modelled as exact rationals; machine floats of the source are
modelled by `ℚ`, and JS array indexing `xs[i]` by `List.getD xs i 0`
(every access is shown in bounds under the code's guards, see claim C10).
-/

namespace Stonk

/-- Holding configuration as read from the form inputs, in whole years
(src/App.tsx lines 254-259: `holdingPeriod`, `dcaBuy`, `dcaSell`,
`dcaBuyPeriod`, `dcaSellPeriod`). -/
structure Config where
  periodYears : ℕ
  dcaBuy : Bool
  dcaSell : Bool
  dcaBuyYears : ℕ
  dcaSellYears : ℕ
deriving DecidableEq

/-- `holdingPeriodDays = periodYears * 365` (line 319). -/
def Config.holdingPeriodDays (c : Config) : ℕ := c.periodYears * 365

/-- `dcaBuyDays = dcaBuyYears * 365` (line 320). -/
def Config.dcaBuyDays (c : Config) : ℕ := c.dcaBuyYears * 365

/-- `dcaSellDays = dcaSellYears * 365` (line 321). -/
def Config.dcaSellDays (c : Config) : ℕ := c.dcaSellYears * 365

/-- The three input-validation guards of lines 310-326: holding period in
`[1, 100]` years, enabled DCA periods at least 1 year, enabled DCA periods
no longer than the holding period. -/
def validateConfig (c : Config) : Bool :=
  !(c.periodYears < 1 || c.periodYears > 100) &&
  !((c.dcaBuy && c.dcaBuyYears < 1) || (c.dcaSell && c.dcaSellYears < 1)) &&
  !((c.dcaBuy && c.dcaBuyYears > c.periodYears) ||
    (c.dcaSell && c.dcaSellYears > c.periodYears))

/-- Error taxonomy of the engine (spec section 7; the code reports these as
the error strings of lines 311, 315, 324, 336, 370). -/
inductive CalcError where
  | inputValidation
  | insufficientData
  | noValidSamples
deriving DecidableEq

/-- JS array read `stockData[i].close`; out-of-range reads default to 0
(never reached under the code's guards). -/
def priceAt (prices : List ℚ) (i : ℕ) : ℚ := prices.getD i 0

/-- `slice(start, start + len)` followed by `reduce(+)/length`
(lines 347-348 and 357-358). -/
def windowMean (prices : List ℚ) (start len : ℕ) : ℚ :=
  ((prices.drop start).take len).sum / (((prices.drop start).take len).length : ℚ)

/-- Buy price at start index `i`: DCA mean over `[i, i + dcaBuyDays)` when
buy averaging is on, else `price[i]` (lines 345-351, also 397-403). -/
def buyPriceAt (prices : List ℚ) (c : Config) (i : ℕ) : ℚ :=
  if c.dcaBuy then windowMean prices i c.dcaBuyDays else priceAt prices i

/-- Sell price at start index `i`: window starts at `i + holdingPeriodDays - 1`;
DCA mean over `dcaSellDays` days when sell averaging is on, else the single
price there (lines 354-361). -/
def sellPriceAt (prices : List ℚ) (c : Config) (i : ℕ) : ℚ :=
  if c.dcaSell then windowMean prices (i + c.holdingPeriodDays - 1) c.dcaSellDays
  else priceAt prices (i + c.holdingPeriodDays - 1)

/-- `requiredDays = holdingPeriodDays + (dcaSell ? dcaSellDays - 1 : 0)`
(line 334). The subtraction is truncated natural subtraction; it coincides
with the source whenever the enabled sell window is at least one day, which
the data-model invariant (`windowDays ≥ 1`) guarantees. -/
def requiredDays (c : Config) : ℕ :=
  c.holdingPeriodDays + (if c.dcaSell then c.dcaSellDays - 1 else 0)

/-- `((sellPrice - buyPrice) / buyPrice) * 100` (line 364). -/
def returnAt (prices : List ℚ) (c : Config) (i : ℕ) : ℚ :=
  (sellPriceAt prices c i - buyPriceAt prices c i) / buyPriceAt prices c i * 100

/-- The sampling loop of lines 343-367: for each start index
`i ∈ [0, N - requiredDays]`, emit `(i, returnAt i)` when the buy price is
positive, skip the index otherwise. -/
def returnSamples (prices : List ℚ) (c : Config) : List (ℕ × ℚ) :=
  (List.range (prices.length - requiredDays c + 1)).filterMap (fun i =>
    if 0 < buyPriceAt prices c i then some (i, returnAt prices c i) else none)

/-- `computeReturns` (spec section 4.1, code lines 334-373): insufficient
data when `N < requiredDays`, no valid samples when every index was
skipped, otherwise the sample list. -/
def computeReturns (prices : List ℚ) (c : Config) :
    Except CalcError (List (ℕ × ℚ)) :=
  if prices.length < requiredDays c then .error .insufficientData
  else if (returnSamples prices c).isEmpty then .error .noValidSamples
  else .ok (returnSamples prices c)

/-- Headline statistics (spec section 4.2, code lines 375-380). -/
structure DistributionSummary where
  totalPeriods : ℕ
  profitablePercentage : ℚ
  averageReturn : ℚ
  bestReturn : ℚ
  worstReturn : ℚ
deriving DecidableEq

/-- One-pass summary of the return list (lines 375-380): count, share of
strictly positive returns, mean, max, min. -/
def summarize (returns : List ℚ) : DistributionSummary :=
  { totalPeriods := returns.length
    profitablePercentage :=
      ((returns.filter (fun r => 0 < r)).length : ℚ) / (returns.length : ℚ) * 100
    averageReturn := returns.sum / (returns.length : ℚ)
    bestReturn := returns.maximum.unbot' 0
    worstReturn := returns.minimum.untop' 0 }

/-- `numTimePoints = min(40, holdingPeriodDays)` (line 384). -/
def numTimePoints (c : Config) : ℕ := min 40 c.holdingPeriodDays

/-- `timePointStep = max(1, floor(holdingPeriodDays / numTimePoints))`
(line 385). -/
def timePointStep (c : Config) : ℕ :=
  max 1 (c.holdingPeriodDays / numTimePoints c)

/-- The day offsets visited by the loop of line 387:
`0, step, 2*step, ...` while `dayOffset ≤ holdingPeriodDays`. -/
def checkpoints (c : Config) : List ℕ :=
  (List.range (c.holdingPeriodDays / timePointStep c + 1)).map
    (fun k => k * timePointStep c)

/-- `sampleStep = max(1, floor((N - holdingPeriodDays) / 1000))` (lines
393-394; `maxSamples = 1000`). -/
def sampleStep (prices : List ℚ) (c : Config) : ℕ :=
  max 1 ((prices.length - c.holdingPeriodDays) / 1000)

/-- Start indices visited by the inner loop of line 396:
`0, s, 2*s, ...` while `i ≤ N - holdingPeriodDays`; no iteration at all
when `N < holdingPeriodDays` (the JS bound is then negative). -/
def sampleIndices (prices : List ℚ) (c : Config) : List ℕ :=
  if prices.length < c.holdingPeriodDays then []
  else
    (List.range ((prices.length - c.holdingPeriodDays) / sampleStep prices c + 1)).map
      (fun k => k * sampleStep prices c)

/-- Partial returns recorded at one checkpoint (lines 396-411): a sample
for each visited start index whose sell index `i + dayOffset` is in range
and whose buy price is positive. -/
def coneSamplesAt (prices : List ℚ) (c : Config) (dayOffset : ℕ) : List ℚ :=
  (sampleIndices prices c).filterMap (fun i =>
    if i + dayOffset < prices.length ∧ 0 < buyPriceAt prices c i then
      some ((priceAt prices (i + dayOffset) - buyPriceAt prices c i) /
        buyPriceAt prices c i * 100)
    else none)

/-- `Math.min(Math.floor(len * p), len - 1)` (lines 416-417). -/
def percentileIndex (len : ℕ) (p : ℚ) : ℕ := min ⌊(len : ℚ) * p⌋₊ (len - 1)

/-- `getPercentile` (lines 415-418) over an already sorted list. -/
def getPercentile (sorted : List ℚ) (p : ℚ) : ℚ :=
  sorted.getD (percentileIndex sorted.length p) 0

/-- One band point of the cone chart (src/unnamed/part_000, `ConeDataPoint`). -/
structure ConeDataPoint where
  timePoint : ℚ
  p10 : ℚ
  p25 : ℚ
  p50 : ℚ
  p75 : ℚ
  p90 : ℚ
deriving DecidableEq

/-- Checkpoint body of lines 388-428: record the partial returns, and when
non-empty sort ascending and emit the five percentiles together with
`timePoint = dayOffset / holdingPeriodDays`. -/
def conePointAt (prices : List ℚ) (c : Config) (dayOffset : ℕ) :
    Option ConeDataPoint :=
  let rs := coneSamplesAt prices c dayOffset
  if rs.isEmpty then none
  else
    let sorted := List.insertionSort (fun a b => a ≤ b) rs
    some { timePoint := (dayOffset : ℚ) / (c.holdingPeriodDays : ℚ)
           p10 := getPercentile sorted (10 / 100)
           p25 := getPercentile sorted (25 / 100)
           p50 := getPercentile sorted (50 / 100)
           p75 := getPercentile sorted (75 / 100)
           p90 := getPercentile sorted (90 / 100) }

/-- `computeCone` (spec section 4.3, code lines 383-429): the emitted cone
points, in checkpoint order; empty checkpoints are skipped. -/
def computeCone (prices : List ℚ) (c : Config) : List ConeDataPoint :=
  (checkpoints c).filterMap (conePointAt prices c)

/-- The full analysis result stored by `setResults` (lines 431-438). -/
structure AnalysisResult where
  totalPeriods : ℕ
  profitablePercentage : ℚ
  averageReturn : ℚ
  bestReturn : ℚ
  worstReturn : ℚ
  coneData : List ConeDataPoint
deriving DecidableEq

/-- End-to-end `handleCalculate` (lines 305-441): validation first — with
no access to the price series — then return sampling, summary, and cone. -/
def analyze (prices : List ℚ) (c : Config) : Except CalcError AnalysisResult :=
  if validateConfig c then
    match computeReturns prices c with
    | .error e => .error e
    | .ok samples =>
      let s := summarize (samples.map Prod.snd)
      .ok { totalPeriods := s.totalPeriods
            profitablePercentage := s.profitablePercentage
            averageReturn := s.averageReturn
            bestReturn := s.bestReturn
            worstReturn := s.worstReturn
            coneData := computeCone prices c }
  else .error .inputValidation

/-! ### Concrete fixtures used by witnesses and counterexamples -/

/-- One-year holding period, no DCA. -/
def cfgY1 : Config := ⟨1, false, false, 1, 1⟩

/-- Two-year holding period, no DCA (spec scenario B). -/
def cfgY2 : Config := ⟨2, false, false, 1, 1⟩

/-- Three-year holding period with a five-year sell DCA (spec scenario D). -/
def cfgD : Config := ⟨3, false, true, 1, 5⟩

/-- A flat series of 365 days at price 1. -/
def flat365 : List ℚ := List.replicate 365 1

/-- A flat series of 1865 days at price 1 (1500 surplus days, so the cone
sample stride stays 1 while the loop visits 1501 start indices). -/
def flat1865 : List ℚ := List.replicate 1865 1

/-- 2365 days alternating between price 0 (even indices) and price 100
(odd indices); the cone sample stride is 2, so the cone only ever sees the
zero prices. -/
def altPrices : List ℚ := (List.range 2365).map (fun i => if i % 2 = 0 then 0 else 100)

/-! ### General helper lemmas -/

/-- A `filterMap` that keeps every element is a `map`. -/
theorem filterMap_eq_map_of_forall {α β : Type} {l : List α} {f : α → Option β}
    {g : α → β} (h : ∀ a ∈ l, f a = some (g a)) : l.filterMap f = l.map g := by
  induction l with
  | nil => rfl
  | cons a l ih =>
    rw [List.filterMap_cons, h a (List.mem_cons_self a l), List.map_cons,
      ih (fun b hb => h b (List.mem_cons_of_mem a hb))]

/-- The validation guards, unfolded to arithmetic facts. -/
theorem validateConfig_iff {c : Config} : validateConfig c = true ↔
    (1 ≤ c.periodYears ∧ c.periodYears ≤ 100 ∧
     (c.dcaBuy = true → 1 ≤ c.dcaBuyYears ∧ c.dcaBuyYears ≤ c.periodYears) ∧
     (c.dcaSell = true → 1 ≤ c.dcaSellYears ∧ c.dcaSellYears ≤ c.periodYears)) := by
  cases hb : c.dcaBuy <;> cases hs : c.dcaSell <;>
    simp [validateConfig, hb, hs] <;> omega

/-- Reading a constant series inside range gives the constant. -/
theorem priceAt_replicate {n i : ℕ} {k : ℚ} (h : i < n) :
    priceAt (List.replicate n k) i = k := by
  simp [priceAt, List.getD_eq_getElem?_getD, List.getElem?_replicate, h]

/-- A window mean over a constant series is the constant, provided the
window is non-degenerate. -/
theorem windowMean_replicate {n start len : ℕ} {k : ℚ} (hs : start < n)
    (hl : 0 < len) : windowMean (List.replicate n k) start len = k := by
  unfold windowMean
  rw [List.drop_replicate, List.take_replicate, List.sum_replicate,
    List.length_replicate, nsmul_eq_mul]
  have hpos : ((min len (n - start) : ℕ) : ℚ) ≠ 0 := by
    rw [Nat.cast_ne_zero]; omega
  rw [mul_comm, mul_div_assoc, div_self hpos, mul_one]

/-- On a constant series the buy price is the constant, for any in-range
start index and validated configuration. -/
theorem buyPriceAt_replicate {n i : ℕ} {k : ℚ} {c : Config}
    (hval : validateConfig c = true) (hi : i < n) :
    buyPriceAt (List.replicate n k) c i = k := by
  cases hb : c.dcaBuy
  · simp only [buyPriceAt, hb, Bool.false_eq_true, if_false]
    exact priceAt_replicate hi
  · have h1 : 1 ≤ c.dcaBuyYears := ((validateConfig_iff.mp hval).2.2.1 hb).1
    simp only [buyPriceAt, hb, if_true]
    exact windowMean_replicate hi (by unfold Config.dcaBuyDays; omega)

/-- On a constant series the sell price is the constant, provided the sell
window starts in range. -/
theorem sellPriceAt_replicate {n i : ℕ} {k : ℚ} {c : Config}
    (hval : validateConfig c = true)
    (hi : i + c.holdingPeriodDays - 1 < n) :
    sellPriceAt (List.replicate n k) c i = k := by
  cases hs : c.dcaSell
  · simp only [sellPriceAt, hs, Bool.false_eq_true, if_false]
    exact priceAt_replicate hi
  · have h1 : 1 ≤ c.dcaSellYears := ((validateConfig_iff.mp hval).2.2.2 hs).1
    simp only [sellPriceAt, hs, if_true]
    exact windowMean_replicate hi (by unfold Config.dcaSellDays; omega)

/-- `getD` with default 0 is monotone in the index on an ascending list,
as long as the larger index is in range. -/
theorem sorted_getD_mono {l : List ℚ} (hs : l.Sorted (fun a b => a ≤ b))
    {i j : ℕ} (hij : i ≤ j) (hj : j < l.length) : l.getD i 0 ≤ l.getD j 0 := by
  have hi : i < l.length := lt_of_le_of_lt hij hj
  rw [List.getD_eq_getElem?_getD, List.getD_eq_getElem?_getD,
    List.getElem?_eq_getElem hi, List.getElem?_eq_getElem hj]
  simp only [Option.getD_some]
  rcases eq_or_lt_of_le hij with rfl | hlt
  · exact le_refl _
  · exact List.pairwise_iff_getElem.mp hs i j hi hj hlt

/-- The percentile index is always a valid index into a non-empty list. -/
theorem percentileIndex_lt {len : ℕ} (h : 1 ≤ len) (p : ℚ) :
    percentileIndex len p < len :=
  lt_of_le_of_lt (min_le_right _ _) (by omega)

/-- The percentile index is monotone in the requested percentile. -/
theorem percentileIndex_mono {len : ℕ} {p q : ℚ} (hpq : p ≤ q) :
    percentileIndex len p ≤ percentileIndex len q :=
  min_le_min
    (Nat.floor_le_floor (mul_le_mul_of_nonneg_left hpq (Nat.cast_nonneg len)))
    (le_refl _)

/-- Percentile lookups are ordered on a sorted non-empty list. -/
theorem getPercentile_mono {l : List ℚ} (hs : l.Sorted (fun a b => a ≤ b))
    (hne : l ≠ []) {p q : ℚ} (hpq : p ≤ q) :
    getPercentile l p ≤ getPercentile l q :=
  sorted_getD_mono hs (percentileIndex_mono hpq)
    (percentileIndex_lt (List.length_pos.mpr hne) q)

/-! ### Cone helper lemmas -/

theorem timePointStep_pos (c : Config) : 0 < timePointStep c :=
  lt_of_lt_of_le one_pos (le_max_left _ _)

theorem sampleStep_pos (prices : List ℚ) (c : Config) : 0 < sampleStep prices c :=
  lt_of_lt_of_le one_pos (le_max_left _ _)

/-- A visited start index certifies that the series covers the holding
period, and lies within the inner loop bound. -/
theorem sampleIndices_mem_bound {prices : List ℚ} {c : Config} {i : ℕ}
    (h : i ∈ sampleIndices prices c) :
    c.holdingPeriodDays ≤ prices.length ∧
      i ≤ prices.length - c.holdingPeriodDays := by
  by_cases h1 : prices.length < c.holdingPeriodDays
  · rw [sampleIndices, if_pos h1] at h
    exact absurd h (List.not_mem_nil _)
  · rw [sampleIndices, if_neg h1] at h
    obtain ⟨k, hk, rfl⟩ := List.mem_map.mp h
    have hk1 : k ≤ (prices.length - c.holdingPeriodDays) / sampleStep prices c := by
      have := List.mem_range.mp hk; omega
    refine ⟨by omega, ?_⟩
    calc k * sampleStep prices c
        ≤ ((prices.length - c.holdingPeriodDays) / sampleStep prices c) *
            sampleStep prices c := Nat.mul_le_mul_right _ hk1
      _ ≤ prices.length - c.holdingPeriodDays := Nat.div_mul_le_self _ _

/-- Every checkpoint day offset is at most the holding period. -/
theorem checkpoints_le {c : Config} {d : ℕ} (h : d ∈ checkpoints c) :
    d ≤ c.holdingPeriodDays := by
  obtain ⟨k, hk, rfl⟩ := List.mem_map.mp h
  have hk1 : k ≤ c.holdingPeriodDays / timePointStep c := by
    have := List.mem_range.mp hk; omega
  calc k * timePointStep c
      ≤ (c.holdingPeriodDays / timePointStep c) * timePointStep c :=
        Nat.mul_le_mul_right _ hk1
    _ ≤ c.holdingPeriodDays := Nat.div_mul_le_self _ _

/-- The checkpoint loop starts at day offset 0. -/
theorem checkpoints_eq_cons (c : Config) :
    checkpoints c = 0 :: (List.range (c.holdingPeriodDays / timePointStep c)).map
      (fun k => (k + 1) * timePointStep c) := by
  unfold checkpoints
  rw [List.range_succ_eq_map, List.map_cons, List.map_map]
  simp [Function.comp_def, Nat.succ_eq_add_one]

/-- The checkpoint day offsets are strictly increasing. -/
theorem checkpoints_pairwise (c : Config) :
    (checkpoints c).Pairwise (fun a b => a < b) := by
  unfold checkpoints
  exact List.Pairwise.map _
    (fun a b hab => (mul_lt_mul_right (timePointStep_pos c)).mpr hab)
    (List.sorted_lt_range _)

theorem conePointAt_eq_none_of {prices : List ℚ} {c : Config} {d : ℕ}
    (h : coneSamplesAt prices c d = []) : conePointAt prices c d = none := by
  simp [conePointAt, h]

theorem conePointAt_eq_some_of {prices : List ℚ} {c : Config} {d : ℕ}
    (h : coneSamplesAt prices c d ≠ []) :
    conePointAt prices c d = some
      { timePoint := (d : ℚ) / (c.holdingPeriodDays : ℚ)
        p10 := getPercentile
          (List.insertionSort (fun a b => a ≤ b) (coneSamplesAt prices c d)) (10 / 100)
        p25 := getPercentile
          (List.insertionSort (fun a b => a ≤ b) (coneSamplesAt prices c d)) (25 / 100)
        p50 := getPercentile
          (List.insertionSort (fun a b => a ≤ b) (coneSamplesAt prices c d)) (50 / 100)
        p75 := getPercentile
          (List.insertionSort (fun a b => a ≤ b) (coneSamplesAt prices c d)) (75 / 100)
        p90 := getPercentile
          (List.insertionSort (fun a b => a ≤ b) (coneSamplesAt prices c d)) (90 / 100) } := by
  simp [conePointAt, h]

/-- The time fraction stored in an emitted cone point. -/
theorem conePointAt_timePoint {prices : List ℚ} {c : Config} {d : ℕ}
    {pt : ConeDataPoint} (h : conePointAt prices c d = some pt) :
    pt.timePoint = (d : ℚ) / (c.holdingPeriodDays : ℚ) := by
  by_cases hne : coneSamplesAt prices c d = []
  · rw [conePointAt_eq_none_of hne] at h
    exact absurd h (by simp)
  · rw [conePointAt_eq_some_of hne] at h
    rw [← Option.some.inj h]

/-- An emitted checkpoint has a sampled index passing both guards. -/
theorem exists_pos_of_coneSamples_ne_nil {prices : List ℚ} {c : Config} {d : ℕ}
    (h : coneSamplesAt prices c d ≠ []) :
    ∃ i ∈ sampleIndices prices c,
      i + d < prices.length ∧ 0 < buyPriceAt prices c i := by
  obtain ⟨x, hx⟩ := List.exists_mem_of_ne_nil _ h
  unfold coneSamplesAt at hx
  obtain ⟨i, hi, hsome⟩ := List.mem_filterMap.mp hx
  by_cases hcond : i + d < prices.length ∧ 0 < buyPriceAt prices c i
  · exact ⟨i, hi, hcond⟩
  · rw [if_neg hcond] at hsome
    exact absurd hsome (by simp)

/-- The `dayOffset = 0` checkpoint records a sample as soon as some visited
start index has a positive buy price. -/
theorem coneSamplesAt_zero_ne_nil {prices : List ℚ} {c : Config}
    (hdays : 0 < c.holdingPeriodDays)
    (hex : ∃ i ∈ sampleIndices prices c, 0 < buyPriceAt prices c i) :
    coneSamplesAt prices c 0 ≠ [] := by
  obtain ⟨i, hi, hpos⟩ := hex
  have hb := sampleIndices_mem_bound hi
  have hiN : i + 0 < prices.length := by omega
  have hmem : (priceAt prices (i + 0) - buyPriceAt prices c i) /
      buyPriceAt prices c i * 100 ∈ coneSamplesAt prices c 0 := by
    unfold coneSamplesAt
    exact List.mem_filterMap.mpr ⟨i, hi, by rw [if_pos ⟨hiN, hpos⟩]⟩
  exact List.ne_nil_of_mem hmem

/-! ### Sorting, validity and sampling-loop helper lemmas -/

theorem insertionSort_sorted (l : List ℚ) :
    (List.insertionSort (fun a b => a ≤ b) l).Sorted (fun a b => a ≤ b) :=
  List.sorted_insertionSort _ l

theorem insertionSort_ne_nil {l : List ℚ} (h : l ≠ []) :
    List.insertionSort (fun a b => a ≤ b) l ≠ [] := by
  intro hn
  apply h
  have hlen := List.length_insertionSort (fun a b => a ≤ b) l
  rw [hn] at hlen
  exact List.length_eq_zero.mp hlen.symm

/-- Numeric consequences of validation, in days. -/
theorem valid_bounds {c : Config} (h : validateConfig c = true) :
    365 ≤ c.holdingPeriodDays ∧ c.holdingPeriodDays ≤ requiredDays c ∧
    (c.dcaBuy = true → 365 ≤ c.dcaBuyDays ∧ c.dcaBuyDays ≤ c.holdingPeriodDays) ∧
    (c.dcaSell = true → 365 ≤ c.dcaSellDays ∧ c.dcaSellDays ≤ c.holdingPeriodDays ∧
      requiredDays c = c.holdingPeriodDays + c.dcaSellDays - 1) ∧
    (c.dcaSell = false → requiredDays c = c.holdingPeriodDays) := by
  obtain ⟨h1, h2, h3, h4⟩ := validateConfig_iff.mp h
  refine ⟨?_, Nat.le_add_right _ _, fun hb => ?_, fun hs => ?_, fun hs => ?_⟩
  · unfold Config.holdingPeriodDays; omega
  · have := h3 hb
    unfold Config.dcaBuyDays Config.holdingPeriodDays; omega
  · have := h4 hs
    rw [requiredDays, if_pos hs]
    unfold Config.dcaSellDays Config.holdingPeriodDays; omega
  · rw [requiredDays, if_neg (by simp [hs])]
    exact Nat.add_zero _

/-- Index bounds of the return-sampling loop under the guard
`N ≥ requiredDays`: the sell read and both averaging windows are in
range. -/
theorem returnLoop_bounds {c : Config} {N i : ℕ} (hval : validateConfig c = true)
    (hN : requiredDays c ≤ N) (hi : i ≤ N - requiredDays c) :
    i + c.holdingPeriodDays - 1 < N ∧ i < N ∧
    (c.dcaBuy = true → i + c.dcaBuyDays ≤ N) ∧
    (c.dcaSell = true → i + c.holdingPeriodDays - 1 + c.dcaSellDays ≤ N) := by
  obtain ⟨h365, hreq, hbuy, hsell, hsellf⟩ := valid_bounds hval
  refine ⟨?_, ?_, fun hb2 => ?_, fun hs2 => ?_⟩
  · omega
  · omega
  · have := hbuy hb2; omega
  · have := hsell hs2; omega

/-- When every buy price in range is positive, the sampling loop drops
nothing. -/
theorem returnSamples_eq_map {prices : List ℚ} {c : Config}
    (hpos : ∀ i ≤ prices.length - requiredDays c, 0 < buyPriceAt prices c i) :
    returnSamples prices c =
      (List.range (prices.length - requiredDays c + 1)).map
        (fun i => (i, returnAt prices c i)) := by
  unfold returnSamples
  apply filterMap_eq_map_of_forall
  intro i hi
  rw [if_pos (hpos i (by have := List.mem_range.mp hi; omega))]

theorem computeReturns_eq_ok {prices : List ℚ} {c : Config}
    (hN : requiredDays c ≤ prices.length)
    (hne : returnSamples prices c ≠ []) :
    computeReturns prices c = .ok (returnSamples prices c) := by
  unfold computeReturns
  rw [if_neg (not_lt.mpr hN), if_neg]
  simpa using hne

/-- `getD` with default 0 on a list of zeros is 0, at any index. -/
theorem getD_eq_zero_of_all_zero {l : List ℚ} (h : ∀ x ∈ l, x = 0) (n : ℕ) :
    l.getD n 0 = 0 := by
  rw [List.getD_eq_getElem?_getD]
  cases hx : l[n]? with
  | none => rfl
  | some x => exact h x (List.getElem?_mem hx)

/-- On a constant series every recorded partial return is zero. -/
theorem coneSamplesAt_replicate_zero {N : ℕ} {k : ℚ} {c : Config}
    (hval : validateConfig c = true) (d : ℕ) :
    ∀ x ∈ coneSamplesAt (List.replicate N k) c d, x = 0 := by
  intro x hx
  unfold coneSamplesAt at hx
  obtain ⟨i, hi, hsome⟩ := List.mem_filterMap.mp hx
  obtain ⟨hcov, hbnd⟩ := sampleIndices_mem_bound hi
  have h365 := (valid_bounds hval).1
  have hlen : (List.replicate N k : List ℚ).length = N := List.length_replicate _ _
  rw [hlen] at hcov hbnd
  have hiN : i < N := by omega
  by_cases hcond : i + d < (List.replicate N k : List ℚ).length ∧
      0 < buyPriceAt (List.replicate N k) c i
  · rw [if_pos hcond] at hsome
    obtain ⟨hsell, _⟩ := hcond
    rw [hlen] at hsell
    rw [← Option.some.inj hsome, buyPriceAt_replicate hval hiN,
      priceAt_replicate hsell, sub_self, zero_div, zero_mul]
  · rw [if_neg hcond] at hsome
    exact absurd hsome (by simp)

/-- An emitted cone point whose samples are all zero has all five
percentiles equal to zero. -/
theorem conePointAt_zero_fields {prices : List ℚ} {c : Config} {d : ℕ}
    {pt : ConeDataPoint} (h : conePointAt prices c d = some pt)
    (hz : ∀ x ∈ coneSamplesAt prices c d, x = 0) :
    pt.p10 = 0 ∧ pt.p25 = 0 ∧ pt.p50 = 0 ∧ pt.p75 = 0 ∧ pt.p90 = 0 := by
  by_cases hne : coneSamplesAt prices c d = []
  · rw [conePointAt_eq_none_of hne] at h
    exact absurd h (by simp)
  · rw [conePointAt_eq_some_of hne] at h
    obtain rfl := Option.some.inj h
    have hz2 : ∀ x ∈ List.insertionSort (fun a b => a ≤ b)
        (coneSamplesAt prices c d), x = 0 :=
      fun x hx => hz x ((List.mem_insertionSort _).mp hx)
    exact ⟨getD_eq_zero_of_all_zero hz2 _, getD_eq_zero_of_all_zero hz2 _,
      getD_eq_zero_of_all_zero hz2 _, getD_eq_zero_of_all_zero hz2 _,
      getD_eq_zero_of_all_zero hz2 _⟩

/-! ### Claim theorems -/

/-- Claim C1: for every price series of length `N` and valid configuration
with `N ≥ requiredWindow`, if the buy price at every start index in
`[0, N - requiredWindow]` is positive, then `computeReturns` yields exactly
`N - requiredWindow + 1` samples, one per start index, in increasing
`startIndex` order. -/
theorem c1_returns_complete {prices : List ℚ} {c : Config}
    (hval : validateConfig c = true)
    (hN : requiredDays c ≤ prices.length)
    (hpos : ∀ i ≤ prices.length - requiredDays c, 0 < buyPriceAt prices c i) :
    computeReturns prices c = .ok (returnSamples prices c) ∧
    (returnSamples prices c).length = prices.length - requiredDays c + 1 ∧
    (returnSamples prices c).map Prod.fst =
      List.range (prices.length - requiredDays c + 1) := by
  have hmap := returnSamples_eq_map hpos
  have hlen : (returnSamples prices c).length =
      prices.length - requiredDays c + 1 := by
    rw [hmap, List.length_map, List.length_range]
  have hne : returnSamples prices c ≠ [] := by
    intro h0; rw [h0] at hlen; simp at hlen
  refine ⟨computeReturns_eq_ok hN hne, hlen, ?_⟩
  rw [hmap, List.map_map]
  have hfst : (Prod.fst ∘ fun i => (i, returnAt prices c i)) = id := rfl
  rw [hfst, List.map_id]

/-- Witness for C1: a flat 366-day series, one-year holding period, no DCA:
two samples at start indices 0 and 1. -/
theorem c1_witness :
    validateConfig cfgY1 = true ∧
    requiredDays cfgY1 ≤ (List.replicate 366 (1 : ℚ)).length ∧
    (∀ i ≤ (List.replicate 366 (1 : ℚ)).length - requiredDays cfgY1,
      0 < buyPriceAt (List.replicate 366 (1 : ℚ)) cfgY1 i) ∧
    (computeReturns (List.replicate 366 (1 : ℚ)) cfgY1 =
      .ok (returnSamples (List.replicate 366 (1 : ℚ)) cfgY1) ∧
    (returnSamples (List.replicate 366 (1 : ℚ)) cfgY1).length =
      (List.replicate 366 (1 : ℚ)).length - requiredDays cfgY1 + 1 ∧
    (returnSamples (List.replicate 366 (1 : ℚ)) cfgY1).map Prod.fst =
      List.range ((List.replicate 366 (1 : ℚ)).length - requiredDays cfgY1 + 1)) :=
  ⟨by decide, by decide, by decide,
    c1_returns_complete (by decide) (by decide) (by decide)⟩

/-- Claim C4: `computeReturns` fails with `InsufficientData` exactly when
`N < requiredWindow`; in particular for a 730-day holding period on a
729-day series with no DCA. -/
theorem c4_insufficient_data_iff :
    (∀ (prices : List ℚ) (c : Config),
      computeReturns prices c = .error .insufficientData ↔
        prices.length < requiredDays c) ∧
    computeReturns (List.replicate 729 (1 : ℚ)) cfgY2 =
      .error .insufficientData := by
  constructor
  · intro prices c
    constructor
    · intro h
      by_contra hN
      rw [computeReturns, if_neg hN] at h
      by_cases he : (returnSamples prices c).isEmpty
      · rw [if_pos he] at h; simp at h
      · rw [if_neg he] at h; simp at h
    · intro h
      rw [computeReturns, if_pos h]
  · rw [computeReturns, if_pos (by decide)]

/-- Claim C5: a configuration with holding period outside `[1,100]` years,
an enabled DCA period below one year, or an enabled DCA period exceeding
the holding period is rejected with `InputValidation` regardless of the
price series (so before any series access). -/
theorem c5_input_validation {c : Config}
    (hbad : c.periodYears < 1 ∨ 100 < c.periodYears ∨
      (c.dcaBuy = true ∧ c.dcaBuyYears < 1) ∨
      (c.dcaSell = true ∧ c.dcaSellYears < 1) ∨
      (c.dcaBuy = true ∧ c.periodYears < c.dcaBuyYears) ∨
      (c.dcaSell = true ∧ c.periodYears < c.dcaSellYears)) :
    ∀ prices : List ℚ, analyze prices c = .error .inputValidation := by
  intro prices
  have hval : ¬ (validateConfig c = true) := by
    intro hval
    obtain ⟨h1, h2, h3, h4⟩ := validateConfig_iff.mp hval
    rcases hbad with h | h | ⟨hb, h⟩ | ⟨hs, h⟩ | ⟨hb, h⟩ | ⟨hs, h⟩
    · omega
    · omega
    · have := h3 hb; omega
    · have := h4 hs; omega
    · have := h3 hb; omega
    · have := h4 hs; omega
  rw [analyze, if_neg hval]

/-- Witness for C5, spec scenario D: a five-year sell DCA on a three-year
holding period is rejected on the empty series. -/
theorem c5_witness :
    (cfgD.periodYears < 1 ∨ 100 < cfgD.periodYears ∨
      (cfgD.dcaBuy = true ∧ cfgD.dcaBuyYears < 1) ∨
      (cfgD.dcaSell = true ∧ cfgD.dcaSellYears < 1) ∨
      (cfgD.dcaBuy = true ∧ cfgD.periodYears < cfgD.dcaBuyYears) ∨
      (cfgD.dcaSell = true ∧ cfgD.periodYears < cfgD.dcaSellYears)) ∧
    analyze [] cfgD = .error .inputValidation :=
  ⟨by decide, c5_input_validation (by decide) []⟩

/-- Claim C10: all indexing is in bounds under the code's guards: in the
return loop every sell read and averaging window stays inside the series;
every cone-sampled start index is inside the series with its buy window;
and the percentile index is valid for any non-empty sample list. -/
theorem c10_index_safety {prices : List ℚ} {c : Config}
    (hval : validateConfig c = true) (hN : requiredDays c ≤ prices.length) :
    (∀ i ≤ prices.length - requiredDays c,
      i + c.holdingPeriodDays - 1 < prices.length ∧
      (c.dcaBuy = true → i + c.dcaBuyDays ≤ prices.length) ∧
      (c.dcaSell = true →
        i + c.holdingPeriodDays - 1 + c.dcaSellDays ≤ prices.length)) ∧
    (∀ i ∈ sampleIndices prices c, i < prices.length ∧
      (c.dcaBuy = true → i + c.dcaBuyDays ≤ prices.length)) ∧
    (∀ len : ℕ, 1 ≤ len → ∀ p : ℚ, percentileIndex len p < len) := by
  obtain ⟨h365, hreq, hbuy, hsell, hsellf⟩ := valid_bounds hval
  refine ⟨fun i hi => ?_, fun i hi => ?_,
    fun len hlen p => percentileIndex_lt hlen p⟩
  · obtain ⟨ha, hb, hc, hd⟩ := returnLoop_bounds hval hN hi
    exact ⟨ha, hc, hd⟩
  · obtain ⟨hcov, hbnd⟩ := sampleIndices_mem_bound hi
    refine ⟨by omega, fun hb2 => ?_⟩
    have := hbuy hb2
    omega

/-- Witness for C10 on a flat 365-day series with a one-year holding
period. -/
theorem c10_witness :
    validateConfig cfgY1 = true ∧ requiredDays cfgY1 ≤ flat365.length ∧
    ((∀ i ≤ flat365.length - requiredDays cfgY1,
      i + cfgY1.holdingPeriodDays - 1 < flat365.length ∧
      (cfgY1.dcaBuy = true → i + cfgY1.dcaBuyDays ≤ flat365.length) ∧
      (cfgY1.dcaSell = true →
        i + cfgY1.holdingPeriodDays - 1 + cfgY1.dcaSellDays ≤ flat365.length)) ∧
    (∀ i ∈ sampleIndices flat365 cfgY1, i < flat365.length ∧
      (cfgY1.dcaBuy = true → i + cfgY1.dcaBuyDays ≤ flat365.length)) ∧
    (∀ len : ℕ, 1 ≤ len → ∀ p : ℚ, percentileIndex len p < len)) :=
  ⟨by decide, by decide, c10_index_safety (by decide) (by decide)⟩

/-- Claim C6: every emitted `ConeDataPoint` satisfies
`p10 ≤ p25 ≤ p50 ≤ p75 ≤ p90`, the percentiles being index-truncation
lookups into the ascending-sorted sample list. -/
theorem c6_percentiles_ordered {prices : List ℚ} {c : Config}
    {pt : ConeDataPoint} (hpt : pt ∈ computeCone prices c) :
    pt.p10 ≤ pt.p25 ∧ pt.p25 ≤ pt.p50 ∧ pt.p50 ≤ pt.p75 ∧ pt.p75 ≤ pt.p90 := by
  obtain ⟨d, hd, hsome⟩ := List.mem_filterMap.mp hpt
  by_cases hne : coneSamplesAt prices c d = []
  · rw [conePointAt_eq_none_of hne] at hsome
    exact absurd hsome (by simp)
  · rw [conePointAt_eq_some_of hne] at hsome
    obtain rfl := Option.some.inj hsome
    have hs := insertionSort_sorted (coneSamplesAt prices c d)
    have hsne := insertionSort_ne_nil hne
    exact ⟨getPercentile_mono hs hsne (by norm_num),
      getPercentile_mono hs hsne (by norm_num),
      getPercentile_mono hs hsne (by norm_num),
      getPercentile_mono hs hsne (by norm_num)⟩

/-- Witness for C6: the first cone point of a flat one-year analysis. -/
theorem c6_witness :
    (⟨0, 0, 0, 0, 0, 0⟩ : ConeDataPoint) ∈ computeCone flat365 cfgY1 ∧
    ((0 : ℚ) ≤ 0 ∧ (0 : ℚ) ≤ 0 ∧ (0 : ℚ) ≤ 0 ∧ (0 : ℚ) ≤ 0) := by
  have hmem : (⟨0, 0, 0, 0, 0, 0⟩ : ConeDataPoint) ∈ computeCone flat365 cfgY1 := by
    have hne : coneSamplesAt flat365 cfgY1 0 ≠ [] :=
      coneSamplesAt_zero_ne_nil (by decide) ⟨0, by decide, by decide⟩
    have h0 := conePointAt_eq_some_of hne
    have hz := coneSamplesAt_replicate_zero (N := 365) (k := (1 : ℚ))
      (c := cfgY1) (by decide) 0
    have hrec : conePointAt flat365 cfgY1 0 = some ⟨0, 0, 0, 0, 0, 0⟩ := by
      obtain ⟨f1, f2, f3, f4, f5⟩ := conePointAt_zero_fields h0 hz
      rw [h0, Option.some_inj, ConeDataPoint.mk.injEq]
      exact ⟨by rw [Nat.cast_zero, zero_div], f1, f2, f3, f4, f5⟩
    unfold computeCone
    rw [checkpoints_eq_cons, List.filterMap_cons, hrec]
    exact List.mem_cons_self _ _
  exact ⟨hmem, c6_percentiles_ordered hmem⟩

/-- Claim C7: for a non-empty sample sequence the summary has
`profitablePercentage ∈ [0, 100]` and
`averageReturn ∈ [worstReturn, bestReturn]`. -/
theorem c7_summary_bounds {returns : List ℚ} (hne : returns ≠ []) :
    0 ≤ (summarize returns).profitablePercentage ∧
    (summarize returns).profitablePercentage ≤ 100 ∧
    (summarize returns).worstReturn ≤ (summarize returns).averageReturn ∧
    (summarize returns).averageReturn ≤ (summarize returns).bestReturn := by
  have hlen : 0 < returns.length := List.length_pos.mpr hne
  have hlenQ : (0 : ℚ) < (returns.length : ℚ) := by exact_mod_cast hlen
  refine ⟨?_, ?_, ?_, ?_⟩
  · show 0 ≤ ((returns.filter (fun r => 0 < r)).length : ℚ) /
      (returns.length : ℚ) * 100
    positivity
  · show ((returns.filter (fun r => 0 < r)).length : ℚ) /
      (returns.length : ℚ) * 100 ≤ 100
    have hcount : ((returns.filter (fun r => 0 < r)).length : ℚ) ≤
        (returns.length : ℚ) := by
      exact_mod_cast List.length_filter_le _ _
    calc ((returns.filter (fun r => 0 < r)).length : ℚ) /
          (returns.length : ℚ) * 100
        ≤ 1 * 100 :=
          mul_le_mul_of_nonneg_right ((div_le_one hlenQ).mpr hcount) (by norm_num)
      _ = 100 := one_mul _
  · show returns.minimum.untop' 0 ≤ returns.sum / (returns.length : ℚ)
    cases hmin : returns.minimum with
    | top => exact absurd (List.minimum_eq_top.mp hmin) hne
    | coe m =>
      rw [WithTop.untop'_coe, le_div_iff₀ hlenQ]
      have hsum := List.card_nsmul_le_sum returns m
        (fun x hx => List.minimum_le_of_mem hx hmin)
      rw [nsmul_eq_mul] at hsum
      calc m * (returns.length : ℚ) = (returns.length : ℚ) * m := mul_comm _ _
        _ ≤ returns.sum := hsum
  · show returns.sum / (returns.length : ℚ) ≤ returns.maximum.unbot' 0
    cases hmax : returns.maximum with
    | bot => exact absurd (List.maximum_eq_bot.mp hmax) hne
    | coe m =>
      rw [WithBot.unbot'_coe, div_le_iff₀ hlenQ]
      have hsum := List.sum_le_card_nsmul returns m
        (fun x hx => List.le_maximum_of_mem hx hmax)
      rw [nsmul_eq_mul] at hsum
      calc returns.sum ≤ (returns.length : ℚ) * m := hsum
        _ = m * (returns.length : ℚ) := mul_comm _ _

/-- Witness for C7 on the sample list `[5, -2, 0]`. -/
theorem c7_witness :
    ([(5 : ℚ), -2, 0] ≠ []) ∧
    (0 ≤ (summarize [(5 : ℚ), -2, 0]).profitablePercentage ∧
    (summarize [(5 : ℚ), -2, 0]).profitablePercentage ≤ 100 ∧
    (summarize [(5 : ℚ), -2, 0]).worstReturn ≤
      (summarize [(5 : ℚ), -2, 0]).averageReturn ∧
    (summarize [(5 : ℚ), -2, 0]).averageReturn ≤
      (summarize [(5 : ℚ), -2, 0]).bestReturn) :=
  ⟨by decide, c7_summary_bounds (by decide)⟩

/-- Mapping over a `filterMap` that never drops an element. -/
theorem map_filterMap_of_forall {α β γ : Type} {l : List α} {f : α → Option β}
    {h : β → γ} {g : α → γ}
    (hall : ∀ a ∈ l, (f a).isSome = true)
    (hfg : ∀ a ∈ l, ∀ b, f a = some b → h b = g a) :
    (l.filterMap f).map h = l.map g := by
  induction l with
  | nil => rfl
  | cons a l ih =>
    rw [List.filterMap_cons]
    cases hfa : f a with
    | none =>
      have := hall a (List.mem_cons_self a l)
      rw [hfa] at this
      exact absurd this (by simp)
    | some b =>
      rw [List.map_cons, List.map_cons,
        ih (fun x hx => hall x (List.mem_cons_of_mem a hx))
          (fun x hx => hfg x (List.mem_cons_of_mem a hx)),
        hfg a (List.mem_cons_self a l) b hfa]

/-- When every checkpoint records at least one sample, the emitted time
fractions are exactly the checkpoint fractions. -/
theorem computeCone_timePoints_of_all {prices : List ℚ} {c : Config}
    (hall : ∀ d ∈ checkpoints c, coneSamplesAt prices c d ≠ []) :
    (computeCone prices c).map ConeDataPoint.timePoint =
      (checkpoints c).map
        (fun d : ℕ => (d : ℚ) / (c.holdingPeriodDays : ℚ)) := by
  unfold computeCone
  apply map_filterMap_of_forall
  · intro d hd
    rw [conePointAt_eq_some_of (hall d hd)]
    rfl
  · intro d hd pt hpt
    exact conePointAt_timePoint hpt

/-- Counterexample for C2: on a flat one-year series every checkpoint
emits a point, yet the final time fraction is `72/73`, not 1 — the code
has no clamping of the final `dayOffset` iteration. -/
theorem c2_counterexample :
    computeCone flat365 cfgY1 ≠ [] ∧
    (computeCone flat365 cfgY1).getLast?.map ConeDataPoint.timePoint =
      some (72 / 73) ∧ (72 / 73 : ℚ) ≠ 1 := by
  have hall : ∀ d ∈ checkpoints cfgY1, coneSamplesAt flat365 cfgY1 d ≠ [] := by
    have hdle : ∀ d ∈ checkpoints cfgY1, d ≤ 360 := by decide
    intro d hd
    have hmem : (priceAt flat365 (0 + d) - buyPriceAt flat365 cfgY1 0) /
        buyPriceAt flat365 cfgY1 0 * 100 ∈ coneSamplesAt flat365 cfgY1 d := by
      unfold coneSamplesAt
      refine List.mem_filterMap.mpr ⟨0, by decide, ?_⟩
      rw [if_pos]
      refine ⟨?_, by decide⟩
      have hd360 := hdle d hd
      have hflen : flat365.length = 365 := by decide
      omega
    exact List.ne_nil_of_mem hmem
  have htp := computeCone_timePoints_of_all hall
  have hlast : (checkpoints cfgY1).getLast? = some 360 := by decide
  refine ⟨?_, ?_, by norm_num⟩
  · intro hnil
    rw [hnil] at htp
    have hckne : checkpoints cfgY1 ≠ [] := by decide
    exact hckne (List.map_eq_nil_iff.mp htp.symm)
  · rw [← List.getLast?_map, htp, List.getLast?_map, hlast, Option.map_some']
    rw [Option.some_inj]
    have hdays : cfgY1.holdingPeriodDays = 365 := by decide
    rw [hdays]
    norm_num

/-- Claim C2 (amended): for every series and valid configuration whose
cone output is non-empty, the time fractions are strictly increasing,
start at 0, and stay at most 1; the final emitted fraction need not be 1
because the loop has no clamping and the last checkpoints may record no
sample. -/
theorem c2_cone_monotone {prices : List ℚ} {c : Config}
    (hval : validateConfig c = true) (hne : computeCone prices c ≠ []) :
    ((computeCone prices c).map ConeDataPoint.timePoint).head? = some 0 ∧
    ((computeCone prices c).map ConeDataPoint.timePoint).Pairwise
      (fun a b => a < b) ∧
    (∀ pt ∈ computeCone prices c, pt.timePoint ≤ 1) := by
  have h365 := (valid_bounds hval).1
  have hdays : 0 < c.holdingPeriodDays := by omega
  have hdaysQ : (0 : ℚ) < (c.holdingPeriodDays : ℚ) := by exact_mod_cast hdays
  have hex : ∃ i ∈ sampleIndices prices c, 0 < buyPriceAt prices c i := by
    obtain ⟨pt, hpt⟩ := List.exists_mem_of_ne_nil _ hne
    obtain ⟨d, hd, hsome⟩ := List.mem_filterMap.mp hpt
    by_cases h0 : coneSamplesAt prices c d = []
    · rw [conePointAt_eq_none_of h0] at hsome
      exact absurd hsome (by simp)
    · obtain ⟨i, hi, _, hpos⟩ := exists_pos_of_coneSamples_ne_nil h0
      exact ⟨i, hi, hpos⟩
  have h0ne := coneSamplesAt_zero_ne_nil hdays hex
  have hpt0 := conePointAt_eq_some_of h0ne
  refine ⟨?_, ?_, ?_⟩
  · unfold computeCone
    rw [checkpoints_eq_cons, List.filterMap_cons, hpt0]
    simp only [List.map_cons, List.head?_cons, Option.some.injEq]
    show ((0 : ℕ) : ℚ) / (c.holdingPeriodDays : ℚ) = 0
    rw [Nat.cast_zero, zero_div]
  · rw [List.pairwise_map]
    unfold computeCone
    rw [List.pairwise_filterMap]
    refine List.Pairwise.imp ?_ (checkpoints_pairwise c)
    intro a b hab pt hpta pt2 hptb
    rw [conePointAt_timePoint (Option.mem_def.mp hpta),
      conePointAt_timePoint (Option.mem_def.mp hptb)]
    rw [div_lt_div_iff_of_pos_right hdaysQ]
    exact_mod_cast hab
  · intro pt hpt
    obtain ⟨d, hd, hsome⟩ := List.mem_filterMap.mp hpt
    rw [conePointAt_timePoint hsome, div_le_one hdaysQ]
    exact_mod_cast checkpoints_le hd

/-- Witness for the amended C2 on the flat one-year series. -/
theorem c2_witness :
    validateConfig cfgY1 = true ∧ computeCone flat365 cfgY1 ≠ [] ∧
    (((computeCone flat365 cfgY1).map ConeDataPoint.timePoint).head? = some 0 ∧
    ((computeCone flat365 cfgY1).map ConeDataPoint.timePoint).Pairwise
      (fun a b => a < b) ∧
    (∀ pt ∈ computeCone flat365 cfgY1, pt.timePoint ≤ 1)) := by
  have hne : computeCone flat365 cfgY1 ≠ [] := by
    have h0ne : coneSamplesAt flat365 cfgY1 0 ≠ [] :=
      coneSamplesAt_zero_ne_nil (by decide) ⟨0, by decide, by decide⟩
    unfold computeCone
    rw [checkpoints_eq_cons, List.filterMap_cons, conePointAt_eq_some_of h0ne]
    exact List.cons_ne_nil _ _
  exact ⟨by decide, hne, c2_cone_monotone (by decide) hne⟩

/-- For any surplus `M = N - holdingPeriodDays`, the inner sampling loop
bound `floor(M / max(1, floor(M / 1000))) + 1` never exceeds 2000. -/
theorem sample_count_bound (M : ℕ) : M / max 1 (M / 1000) + 1 ≤ 2000 := by
  by_cases h : M < 2000
  · have h1 : M / max 1 (M / 1000) ≤ M := Nat.div_le_self _ _
    exact le_trans (Nat.add_le_add_right h1 1) (by omega)
  · have h2 : 2 ≤ M / 1000 := by omega
    have hmax : max 1 (M / 1000) = M / 1000 := Nat.max_eq_right (by omega)
    rw [hmax]
    have hMq : M ≤ 999 + 1000 * (M / 1000) := by omega
    have hdiv : M / (M / 1000) ≤ (999 + 1000 * (M / 1000)) / (M / 1000) :=
      Nat.div_le_div_right hMq
    rw [Nat.add_mul_div_right _ _ (by omega : 0 < M / 1000)] at hdiv
    have h999 : 999 / (M / 1000) ≤ 499 :=
      le_trans (Nat.div_le_div_left h2 (by norm_num)) (by norm_num)
    have hle : M / (M / 1000) ≤ 1499 :=
      le_trans hdiv (le_trans (Nat.add_le_add_right h999 1000) (by norm_num))
    exact le_trans (Nat.add_le_add_right hle 1) (by norm_num)

/-- For every validated configuration the checkpoint loop runs at most 41
times (`numTimePoints + 1`), checked over all holding periods of 1 to 100
years. -/
theorem checkpoints_card_le {c : Config} (hval : validateConfig c = true) :
    (checkpoints c).length ≤ 41 := by
  have hdec : ∀ y < 101,
      y * 365 / max 1 (y * 365 / min 40 (y * 365)) + 1 ≤ 41 := by decide
  obtain ⟨h1, h2, _, _⟩ := validateConfig_iff.mp hval
  have hlen : (checkpoints c).length =
      c.holdingPeriodDays / timePointStep c + 1 := by
    rw [checkpoints, List.length_map, List.length_range]
  rw [hlen]
  have hy := hdec c.periodYears (by omega)
  unfold timePointStep numTimePoints Config.holdingPeriodDays
  exact hy

/-- Counterexample for C3: with a one-year holding period the checkpoint
loop runs 41 times (not at most 40), and on a flat 1865-day series the
`dayOffset = 0` checkpoint records 1501 samples (not at most 1000):
`sampleStep = max(1, floor(1500/1000)) = 1`. -/
theorem c3_counterexample :
    (checkpoints cfgY1).length = 41 ∧ 40 < (checkpoints cfgY1).length ∧
    (coneSamplesAt flat1865 cfgY1 0).length = 1501 ∧
    1000 < (coneSamplesAt flat1865 cfgY1 0).length := by
  have hflen : flat1865.length = 1865 := by
    rw [flat1865, List.length_replicate]
  have hdays : cfgY1.holdingPeriodDays = 365 := by decide
  have hlen : (coneSamplesAt flat1865 cfgY1 0).length = 1501 := by
    unfold coneSamplesAt
    rw [filterMap_eq_map_of_forall (g := fun i =>
      (priceAt flat1865 (i + 0) - buyPriceAt flat1865 cfgY1 i) /
        buyPriceAt flat1865 cfgY1 i * 100)]
    · rw [List.length_map, sampleIndices, if_neg (by rw [hflen, hdays]; omega),
        List.length_map, List.length_range, sampleStep, hflen, hdays]
      decide
    · intro i hi
      obtain ⟨hcov, hbnd⟩ := sampleIndices_mem_bound hi
      rw [hflen, hdays] at hbnd
      rw [if_pos]
      constructor
      · rw [hflen]; omega
      · show 0 < buyPriceAt flat1865 cfgY1 i
        unfold flat1865
        rw [buyPriceAt_replicate (by decide) (by omega : i < 1865)]
        exact one_pos
  refine ⟨by decide, by decide, hlen, by rw [hlen]; norm_num⟩

/-- Claim C3 (amended): `computeCone` evaluates at most 41 time checkpoints
(`numTimePoints + 1`, not 40), and at each checkpoint records at most 2000
start-position samples (not 1000; `sampleStep = max(1, floor(M/1000))`
keeps the count below `2 × maxSamples` but not below `maxSamples`). -/
theorem c3_downsampling_bounds {c : Config} (hval : validateConfig c = true) :
    (checkpoints c).length ≤ 41 ∧
    ∀ (prices : List ℚ) (d : ℕ), (coneSamplesAt prices c d).length ≤ 2000 := by
  refine ⟨checkpoints_card_le hval, fun prices d => ?_⟩
  apply le_trans (List.length_filterMap_le _ _)
  by_cases h1 : prices.length < c.holdingPeriodDays
  · rw [sampleIndices, if_pos h1]
    simp
  · rw [sampleIndices, if_neg h1, List.length_map, List.length_range, sampleStep]
    exact sample_count_bound _

/-- Witness for the amended C3 at the one-year configuration. -/
theorem c3_witness :
    validateConfig cfgY1 = true ∧
    ((checkpoints cfgY1).length ≤ 41 ∧
    ∀ (prices : List ℚ) (d : ℕ),
      (coneSamplesAt prices cfgY1 d).length ≤ 2000) :=
  ⟨by decide, c3_downsampling_bounds (by decide)⟩

theorem maximum_unbot_zero {l : List ℚ} (hz : ∀ x ∈ l, x = 0) :
    l.maximum.unbot' 0 = 0 := by
  cases hmax : l.maximum with
  | bot => rfl
  | coe m =>
    rw [WithBot.unbot'_coe]
    exact hz m (List.maximum_mem hmax)

theorem minimum_untop_zero {l : List ℚ} (hz : ∀ x ∈ l, x = 0) :
    l.minimum.untop' 0 = 0 := by
  cases hmin : l.minimum with
  | top => rfl
  | coe m =>
    rw [WithTop.untop'_coe]
    exact hz m (List.minimum_mem hmin)

/-- Summarizing a constant-zero return list gives all-zero statistics. -/
theorem summarize_replicate_zero (m : ℕ) :
    summarize (List.replicate m (0 : ℚ)) = ⟨m, 0, 0, 0, 0⟩ := by
  have hz : ∀ x ∈ List.replicate m (0 : ℚ), x = 0 :=
    fun x hx => List.eq_of_mem_replicate hx
  rw [summarize, DistributionSummary.mk.injEq]
  refine ⟨List.length_replicate _ _, ?_, ?_, ?_, ?_⟩
  · rw [List.filter_eq_nil_iff.mpr (fun a ha => by rw [hz a ha]; simp)]
    rw [List.length_nil, Nat.cast_zero, zero_div, zero_mul]
  · rw [List.sum_replicate, smul_zero, zero_div]
  · exact maximum_unbot_zero hz
  · exact minimum_untop_zero hz

/-- Claim C8: on a constant positive series covering the required window,
the analysis succeeds with `averageReturn = 0`, `profitablePercentage = 0`
(zero returns are not counted as profitable), zero best and worst returns,
and every emitted cone point has all five percentiles equal to 0. -/
theorem c8_flat_series {N : ℕ} {k : ℚ} {c : Config}
    (hval : validateConfig c = true) (hk : 0 < k)
    (hN : requiredDays c ≤ N) :
    analyze (List.replicate N k) c = .ok
      { totalPeriods := N - requiredDays c + 1
        profitablePercentage := 0
        averageReturn := 0
        bestReturn := 0
        worstReturn := 0
        coneData := computeCone (List.replicate N k) c } ∧
    ∀ pt ∈ computeCone (List.replicate N k) c,
      pt.p10 = 0 ∧ pt.p25 = 0 ∧ pt.p50 = 0 ∧ pt.p75 = 0 ∧ pt.p90 = 0 := by
  have hlen : (List.replicate N k : List ℚ).length = N :=
    List.length_replicate _ _
  have hpos : ∀ i ≤ N - requiredDays c,
      0 < buyPriceAt (List.replicate N k) c i := by
    intro i hi
    have hb := returnLoop_bounds hval hN hi
    rw [buyPriceAt_replicate hval hb.2.1]
    exact hk
  have hmap : returnSamples (List.replicate N k) c =
      (List.range (N - requiredDays c + 1)).map
        (fun i => (i, returnAt (List.replicate N k) c i)) := by
    have h0 := @returnSamples_eq_map (List.replicate N k) c
      (by rw [hlen]; exact hpos)
    rw [hlen] at h0
    exact h0
  have hzero : ∀ i ≤ N - requiredDays c,
      returnAt (List.replicate N k) c i = 0 := by
    intro i hi
    have hb := returnLoop_bounds hval hN hi
    rw [returnAt, buyPriceAt_replicate hval hb.2.1,
      sellPriceAt_replicate hval hb.1, sub_self, zero_div, zero_mul]
  have hsnd : (returnSamples (List.replicate N k) c).map Prod.snd =
      List.replicate (N - requiredDays c + 1) 0 := by
    rw [hmap, List.map_map]
    have hcomp : (Prod.snd ∘ fun i => (i, returnAt (List.replicate N k) c i)) =
        fun i => returnAt (List.replicate N k) c i := rfl
    rw [hcomp]
    refine List.eq_replicate_iff.mpr
      ⟨by rw [List.length_map, List.length_range], ?_⟩
    intro b hb2
    obtain ⟨i, hi, rfl⟩ := List.mem_map.mp hb2
    exact hzero i (by have := List.mem_range.mp hi; omega)
  have hne : returnSamples (List.replicate N k) c ≠ [] := by
    rw [hmap]
    intro hnil
    have hl := congrArg List.length hnil
    rw [List.length_map, List.length_range] at hl
    simp at hl
  have hok := computeReturns_eq_ok (by rw [hlen]; exact hN) hne
  constructor
  · rw [analyze, if_pos hval, hok]
    dsimp only
    rw [hsnd, summarize_replicate_zero]
  · intro pt hpt
    obtain ⟨d, hd, hsome⟩ := List.mem_filterMap.mp hpt
    exact conePointAt_zero_fields hsome (coneSamplesAt_replicate_zero hval d)

/-- Witness for C8: a flat one-year series at price 1. -/
theorem c8_witness :
    validateConfig cfgY1 = true ∧ (0 : ℚ) < 1 ∧ requiredDays cfgY1 ≤ 365 ∧
    (analyze (List.replicate 365 (1 : ℚ)) cfgY1 = .ok
      { totalPeriods := 365 - requiredDays cfgY1 + 1
        profitablePercentage := 0
        averageReturn := 0
        bestReturn := 0
        worstReturn := 0
        coneData := computeCone (List.replicate 365 (1 : ℚ)) cfgY1 } ∧
    ∀ pt ∈ computeCone (List.replicate 365 (1 : ℚ)) cfgY1,
      pt.p10 = 0 ∧ pt.p25 = 0 ∧ pt.p50 = 0 ∧ pt.p75 = 0 ∧ pt.p90 = 0) :=
  ⟨by decide, by decide, by decide,
    c8_flat_series (by decide) (by decide) (by decide)⟩

/-- Counterexample for C9: on the alternating 0/100 series of 2365 days
with a one-year holding period, `computeReturns` succeeds (all odd start
indices have buy price 100), yet `computeCone` is empty: the cone's
`sampleStep` is 2, so the cone only visits even start indices, whose buy
price is 0 and which are therefore all skipped at every checkpoint. -/
theorem c9_counterexample :
    (∃ l, computeReturns altPrices cfgY1 = .ok l) ∧
    computeCone altPrices cfgY1 = [] := by
  have hlength : altPrices.length = 2365 := by
    rw [altPrices, List.length_map, List.length_range]
  have hdays : cfgY1.holdingPeriodDays = 365 := by decide
  have hrd : requiredDays cfgY1 = 365 := by decide
  have hget : ∀ i < 2365,
      priceAt altPrices i = if i % 2 = 0 then 0 else 100 := by
    intro i hi
    rw [altPrices, priceAt, List.getD_eq_getElem?_getD, List.getElem?_map,
      List.getElem?_range hi]
    rfl
  constructor
  · have hbuy1 : buyPriceAt altPrices cfgY1 1 = 100 := by
      rw [buyPriceAt, if_neg (by decide), hget 1 (by norm_num)]
      norm_num
    have hmem : (1, returnAt altPrices cfgY1 1) ∈
        returnSamples altPrices cfgY1 := by
      rw [returnSamples]
      refine List.mem_filterMap.mpr ⟨1, ?_, ?_⟩
      · rw [List.mem_range, hlength, hrd]
        norm_num
      · rw [if_pos (by rw [hbuy1]; norm_num)]
    exact ⟨returnSamples altPrices cfgY1,
      computeReturns_eq_ok (by rw [hlength, hrd]; norm_num)
        (List.ne_nil_of_mem hmem)⟩
  · rw [computeCone, List.filterMap_eq_nil_iff]
    intro d hd
    apply conePointAt_eq_none_of
    rw [coneSamplesAt, List.filterMap_eq_nil_iff]
    intro i hi
    have hstep : sampleStep altPrices cfgY1 = 2 := by
      rw [sampleStep, hlength, hdays]
      decide
    rw [sampleIndices, if_neg (by rw [hlength, hdays]; omega)] at hi
    obtain ⟨j, hj, rfl⟩ := List.mem_map.mp hi
    rw [hlength, hdays, hstep, List.mem_range] at hj
    rw [hstep]
    have hbuy0 : buyPriceAt altPrices cfgY1 (j * 2) = 0 := by
      rw [buyPriceAt, if_neg (by decide), hget (j * 2) (by omega)]
      simp [Nat.mul_mod_left]
    have hnot : ¬ (j * 2 + d < altPrices.length ∧
        0 < buyPriceAt altPrices cfgY1 (j * 2)) := by
      rintro ⟨-, hpos⟩
      rw [hbuy0] at hpos
      exact lt_irrefl 0 hpos
    rw [if_neg hnot]

/-- Claim C9 (amended): whenever `computeReturns` succeeds on a valid
configuration and, in addition, some start index actually visited by the
cone's strided sampling loop has a positive buy price (automatic when
`sampleStep = 1`, but not in general), `computeCone` is non-empty and its
first point has time fraction 0. -/
theorem c9_cone_nonempty {prices : List ℚ} {c : Config}
    (hval : validateConfig c = true)
    (hok : ∃ l, computeReturns prices c = .ok l)
    (hex : ∃ i ∈ sampleIndices prices c, 0 < buyPriceAt prices c i) :
    computeCone prices c ≠ [] ∧
    ((computeCone prices c).map ConeDataPoint.timePoint).head? = some 0 := by
  have h365 := (valid_bounds hval).1
  have hdays : 0 < c.holdingPeriodDays := by omega
  have h0ne := coneSamplesAt_zero_ne_nil hdays hex
  have hpt0 := conePointAt_eq_some_of h0ne
  constructor
  · unfold computeCone
    rw [checkpoints_eq_cons, List.filterMap_cons, hpt0]
    exact List.cons_ne_nil _ _
  · unfold computeCone
    rw [checkpoints_eq_cons, List.filterMap_cons, hpt0]
    simp only [List.map_cons, List.head?_cons, Option.some.injEq]
    show ((0 : ℕ) : ℚ) / (c.holdingPeriodDays : ℚ) = 0
    rw [Nat.cast_zero, zero_div]

/-- Witness for the amended C9 on the flat one-year series. -/
theorem c9_witness :
    validateConfig cfgY1 = true ∧
    (∃ l, computeReturns flat365 cfgY1 = .ok l) ∧
    (∃ i ∈ sampleIndices flat365 cfgY1, 0 < buyPriceAt flat365 cfgY1 i) ∧
    (computeCone flat365 cfgY1 ≠ [] ∧
    ((computeCone flat365 cfgY1).map ConeDataPoint.timePoint).head? = some 0) := by
  have hok : ∃ l, computeReturns flat365 cfgY1 = .ok l := by
    have hmem : (0, returnAt flat365 cfgY1 0) ∈ returnSamples flat365 cfgY1 := by
      rw [returnSamples]
      exact List.mem_filterMap.mpr ⟨0, by decide, by rw [if_pos (by decide)]⟩
    exact ⟨returnSamples flat365 cfgY1,
      computeReturns_eq_ok (by decide) (List.ne_nil_of_mem hmem)⟩
  have hex : ∃ i ∈ sampleIndices flat365 cfgY1, 0 < buyPriceAt flat365 cfgY1 i :=
    ⟨0, by decide, by decide⟩
  exact ⟨by decide, hok, hex, c9_cone_nonempty (by decide) hok hex⟩

end Stonk
